import Mathlib

/-!
Shallow embedding of the monad_automation repository for specification
checking.  The embedding follows the Python sources in src/ closely:

* src/core/wallet.py     : Wallet, WalletManager (wallet store, persistence,
                           active-wallet switching, transfer / approve).
* src/core/blockchain.py : MonadClient.set_account, send_transaction,
                           wait_for_transaction_receipt.
* src/tasks/base.py      : TaskResult, BaseTask.run, MultiTask.execute,
                           ParallelTask.execute.

External library facts (eth_account address derivation, web3 checksumming,
the mnemonic derivation, the RPC node) are out of scope of the spec and are
modelled as abstract function parameters; everything the repository itself
computes is translated directly from the source.

Python specifics kept by the translation: machine integers are modelled as
Nat (wei amounts and gas values are non-negative), dictionaries as
insertion-ordered association lists with update-in-place semantics
(pyDictInsert), exceptions as Except values, and string truthiness (the
empty string is falsy) is spelled out wherever the source relies on it.
-/

/-- Model of eth_account LocalAccount: the library guarantees that the
account exposes an address and the hex form of its key. -/
structure LocalAccount where
  address : String
  keyHex : String
deriving DecidableEq, Repr

/-- Model of eth_account Account.from_key: derives the account whose address
is the address derived from the key.  The derivation function itself is the
external secp256k1 library, abstracted as the parameter derive. -/
def Account.from_key (derive : String → String) (k : String) : LocalAccount :=
  { address := derive k, keyHex := k }

/-- Persisted wallet record, the exact shape written by Wallet.to_dict in
src/core/wallet.py lines 100 to 111: fields name, address, private_key.
There is no ciphertext field and no salt field in the source. -/
structure WalletRecord where
  name : String
  address : String
  private_key : Option String
deriving DecidableEq, Repr

/-- In-memory wallet, from the Wallet class of src/core/wallet.py. -/
structure Wallet where
  name : String
  address : String
  private_key : Option String
  account : Option LocalAccount
deriving DecidableEq, Repr

/-- Wallet.__init__ (src/core/wallet.py lines 27 to 52): stores the name,
checksums the given address, stores the private key verbatim, and sets the
account from the explicit argument or, failing that (Python truthiness: an
empty-string key is falsy), derives it from the private key.  No
consistency check between address and key is performed. -/
def Wallet.init (derive checksum : String → String) (name address : String)
    (private_key : Option String) (account : Option LocalAccount) : Wallet :=
  { name := name
    address := checksum address
    private_key := private_key
    account :=
      match account with
      | some a => some a
      | none =>
        match private_key with
        | some k => if k == ("") then none else some (Account.from_key derive k)
        | none => none }

/-- Python string method startswith, computed on the character data of the
strings. -/
def strStartsWith (s pre : String) : Bool :=
  pre.data.isPrefixOf s.data

/-- The 0x prefix normalisation of Wallet.from_private_key. -/
def with0x (k : String) : String :=
  if strStartsWith k ("0x") then k else ("0x") ++ k

/-- Wallet.from_private_key (src/core/wallet.py lines 54 to 76): prepends 0x
when missing, derives the account from the key, and builds the wallet with
the account address as its address. -/
def Wallet.from_private_key (derive checksum : String → String)
    (name private_key : String) : Wallet :=
  let pk := with0x private_key
  let account := Account.from_key derive pk
  Wallet.init derive checksum name account.address (some pk) (some account)

/-- Wallet.from_mnemonic (src/core/wallet.py lines 78 to 98): the mnemonic
derivation Account.from_mnemonic is the external library; the account it
returns is taken as a parameter.  The wallet is built from the account
address and the hex of the account key. -/
def Wallet.from_mnemonic (derive checksum : String → String) (name : String)
    (acct : LocalAccount) : Wallet :=
  Wallet.init derive checksum name acct.address (some acct.keyHex) (some acct)

/-- Wallet.to_dict (src/core/wallet.py lines 100 to 111): serializes name,
address and the private key; Python truthiness turns an empty-string key
into None.  The key is written verbatim: no password, no KDF, no salt, no
ciphertext appears anywhere in the source. -/
def Wallet.to_dict (w : Wallet) : WalletRecord :=
  { name := w.name
    address := w.address
    private_key :=
      match w.private_key with
      | some k => if k == ("") then none else some k
      | none => none }

/-- Wallet.from_dict (src/core/wallet.py lines 113 to 133): a truthy
private_key entry goes through from_private_key (the stored address is
ignored there), otherwise a watch-only wallet is built from name and
address. -/
def Wallet.from_dict (derive checksum : String → String) (r : WalletRecord) :
    Wallet :=
  match r.private_key with
  | some k =>
    if k == ("") then Wallet.init derive checksum r.name r.address none none
    else Wallet.from_private_key derive checksum r.name k
  | none => Wallet.init derive checksum r.name r.address none none

/-- Wallet.has_private_key (src/core/wallet.py lines 135 to 142): the key is
not None (note: an empty-string key still counts). -/
def Wallet.has_private_key (w : Wallet) : Bool :=
  w.private_key.isSome

/-- Address-key consistency, the invariant claimed by the spec: whenever the
wallet holds a private key, its stored address is the checksummed address
derived from that key. -/
def addrConsistent (derive checksum : String → String) (w : Wallet) : Prop :=
  ∀ k, w.private_key = some k → w.address = checksum (derive k)

/-- Python dict assignment d[k] = v on an insertion-ordered dictionary
modelled as an association list: update in place when the key exists,
append otherwise. -/
def pyDictInsert {α : Type} (l : List (String × α)) (k : String) (v : α) :
    List (String × α) :=
  if l.any (fun p => p.1 == k) then
    l.map (fun p => if p.1 == k then (k, v) else p)
  else l ++ [(k, v)]

/-- Decidable equality for Except values, used to evaluate the embedding at
concrete inputs. -/
instance exceptDecidableEq {ε α : Type} [DecidableEq ε] [DecidableEq α] :
    DecidableEq (Except ε α) := fun x y =>
  match x, y with
  | Except.ok a, Except.ok b =>
    match decEq a b with
    | isTrue h => isTrue (by rw [h])
    | isFalse h => isFalse (by intro he; cases he; exact h rfl)
  | Except.error a, Except.error b =>
    match decEq a b with
    | isTrue h => isTrue (by rw [h])
    | isFalse h => isFalse (by intro he; cases he; exact h rfl)
  | Except.ok _, Except.error _ => isFalse (by intro he; cases he)
  | Except.error _, Except.ok _ => isFalse (by intro he; cases he)

/-- Error values raised by the wallet and client modules
(src/core/exceptions.py); each carries the message text. -/
inductive MErr
  | walletError (msg : String)
  | valueError (msg : String)
  | insufficientFunds (msg : String)
  | transactionError (msg : String)
deriving DecidableEq, Repr

/-- Message text of an error, as interpolated by the Python f-strings. -/
def MErr.text : MErr → String
  | .walletError m => m
  | .valueError m => m
  | .insufficientFunds m => m
  | .transactionError m => m

/-- State of the MonadClient fields touched by the wallet manager:
the injected signing account (self.account), the signer captured by the
sign_and_send_raw middleware (both are written together by set_account),
and the current sending address (self.wallet_address). -/
structure ClientState where
  account : Option LocalAccount
  middleware_signer : Option LocalAccount
  wallet_address : Option String
deriving DecidableEq, Repr

/-- MonadClient.set_account (src/core/blockchain.py lines 117 to 134):
stores the account and replaces the sign_and_send_raw middleware with one
built from the same account. -/
def MonadClient.set_account (c : ClientState) (acct : Option LocalAccount) :
    ClientState :=
  { c with account := acct, middleware_signer := acct }

/-- State of a WalletManager (src/core/wallet.py lines 148 to 167) together
with the wallet directory contents it reads and writes.  hasWalletDir
models the Python truthiness and existence checks on
self.wallet_directory; disk maps file names to the parsed records the
files hold. -/
structure ManagerState where
  wallets : List (String × Wallet)
  active_wallet_name : Option String
  client : ClientState
  hasWalletDir : Bool
  disk : List (String × WalletRecord)
deriving DecidableEq, Repr

/-- WalletManager.active_wallet property (src/core/wallet.py lines 169 to
174): None when no name is set, otherwise dictionary lookup. -/
def ManagerState.active_wallet (s : ManagerState) : Option Wallet :=
  match s.active_wallet_name with
  | none => none
  | some n => s.wallets.lookup n

/-- WalletManager.set_active_wallet (src/core/wallet.py lines 280 to 298):
raises WalletError when the name is unknown; otherwise records the name,
pushes the wallet account into the client when the wallet has a private
key, and always updates the client sending address to the wallet
address. -/
def WalletManager.set_active_wallet (s : ManagerState) (name : String) :
    Except MErr ManagerState :=
  match s.wallets.lookup name with
  | none => Except.error (MErr.walletError (("Wallet not found: ") ++ name))
  | some w =>
    let c1 := if w.has_private_key then MonadClient.set_account s.client w.account
              else s.client
    Except.ok
      { s with
        active_wallet_name := some name
        client := { c1 with wallet_address := some w.address } }

/-- WalletManager.save_wallet (src/core/wallet.py lines 191 to 208):
returns silently without a wallet directory; raises WalletError for an
unknown name; otherwise writes the to_dict record to the file
name.wallet.  Note that the record is written as produced by to_dict:
the private key goes to disk in the clear. -/
def WalletManager.save_wallet (s : ManagerState) (wallet_name : String) :
    Except MErr ManagerState :=
  if s.hasWalletDir = false then Except.ok s
  else
    match s.wallets.lookup wallet_name with
    | none =>
      Except.error (MErr.walletError (("Wallet not found: ") ++ wallet_name))
    | some w =>
      Except.ok
        { s with
          disk := pyDictInsert s.disk (wallet_name ++ (".wallet")) (Wallet.to_dict w) }

/-- WalletManager.add_wallet (src/core/wallet.py lines 210 to 224): stores
the wallet under its name, makes it active when it is the only wallet, and
then saves it to file (every add re-persists the wallet). -/
def WalletManager.add_wallet (s : ManagerState) (w : Wallet) :
    Except MErr ManagerState :=
  let s1 : ManagerState := { s with wallets := pyDictInsert s.wallets w.name w }
  match (if s1.wallets.length == 1
         then WalletManager.set_active_wallet s1 w.name
         else Except.ok s1) with
  | Except.error e => Except.error e
  | Except.ok s2 => WalletManager.save_wallet s2 w.name

/-- WalletManager.load_wallets (src/core/wallet.py lines 176 to 189):
returns at once without a wallet directory; otherwise walks the wallet
files in order, parses each, builds the wallet with from_dict and
registers it with add_wallet; any exception for one file (the json parse
failure is the Except.error case of the input, and a failing add_wallet
likewise) is printed and that file skipped. -/
def WalletManager.load_wallets (derive checksum : String → String)
    (s : ManagerState) (files : List (Except String WalletRecord)) :
    ManagerState :=
  if s.hasWalletDir = false then s
  else
    files.foldl
      (fun st f =>
        match f with
        | Except.error _ => st
        | Except.ok r =>
          match WalletManager.add_wallet st (Wallet.from_dict derive checksum r) with
          | Except.error _ => st
          | Except.ok st2 => st2)
      s

/-- WalletManager._get_wallet_for_operation (src/core/wallet.py lines 638
to 660): a truthy wallet_name is looked up with get_wallet (raising for an
unknown name), otherwise the active wallet is taken; no wallet at all or a
wallet without a private key raises WalletError. -/
def WalletManager.get_wallet_for_operation (s : ManagerState)
    (wallet_name : Option String) : Except MErr Wallet :=
  let fetched : Except MErr (Option Wallet) :=
    match wallet_name with
    | some n =>
      if n == ("") then Except.ok s.active_wallet
      else
        match s.wallets.lookup n with
        | some w => Except.ok (some w)
        | none => Except.error (MErr.walletError (("Wallet not found: ") ++ n))
    | none => Except.ok s.active_wallet
  match fetched with
  | Except.error e => Except.error e
  | Except.ok none =>
    Except.error (MErr.walletError ("No wallet specified and no active wallet set"))
  | Except.ok (some w) =>
    if w.has_private_key then Except.ok w
    else
      Except.error (MErr.walletError
        ((("Wallet ") ++ w.name) ++ (" does not have a private key for signing transactions")))

/-- WalletManager.transfer (src/core/wallet.py lines 392 to 434).  The
transfer body (_transfer_eth or _transfer_erc20) only interacts with the
client, never with the wallet map or the active pointer, so it is modelled
as a function on the client state that always yields the post state plus
either a transaction hash or the raised error.  The switch and restore
around the body follow the source: switch when the wallet name differs
from the original active name; in the finally block restore only when it
differs and the original was not None. -/
def WalletManager.transfer (s : ManagerState) (wallet_name : Option String)
    (body : ClientState → ClientState × Except MErr String) :
    ManagerState × Except MErr String :=
  match WalletManager.get_wallet_for_operation s wallet_name with
  | Except.error e => (s, Except.error e)
  | Except.ok w =>
    let original := s.active_wallet_name
    match (if some w.name ≠ original
           then WalletManager.set_active_wallet s w.name
           else Except.ok s) with
    | Except.error e => (s, Except.error e)
    | Except.ok s1 =>
      let br := body s1.client
      let s2 : ManagerState := { s1 with client := br.1 }
      if some w.name ≠ original then
        match original with
        | none => (s2, br.2)
        | some o =>
          match WalletManager.set_active_wallet s2 o with
          | Except.error e2 => (s2, Except.error e2)
          | Except.ok s3 => (s3, br.2)
      else (s2, br.2)

/-- WalletManager.approve_token (src/core/wallet.py lines 554 to 636): the
same switch and restore skeleton as transfer, with the body exceptions
wrapped into WalletError by the except clause before the finally block
restores the original wallet. -/
def WalletManager.approve_token (s : ManagerState) (wallet_name : Option String)
    (body : ClientState → ClientState × Except MErr String) :
    ManagerState × Except MErr String :=
  match WalletManager.get_wallet_for_operation s wallet_name with
  | Except.error e => (s, Except.error e)
  | Except.ok w =>
    let original := s.active_wallet_name
    match (if some w.name ≠ original
           then WalletManager.set_active_wallet s w.name
           else Except.ok s) with
    | Except.error e => (s, Except.error e)
    | Except.ok s1 =>
      let br := body s1.client
      let r2 : Except MErr String :=
        match br.2 with
        | Except.ok h => Except.ok h
        | Except.error e =>
          Except.error (MErr.walletError (("Failed to approve tokens: ") ++ MErr.text e))
      let s2 : ManagerState := { s1 with client := br.1 }
      if some w.name ≠ original then
        match original with
        | none => (s2, r2)
        | some o =>
          match WalletManager.set_active_wallet s2 o with
          | Except.error e2 => (s2, Except.error e2)
          | Except.ok s3 => (s3, r2)
      else (s2, r2)

/-- Transaction parameter dictionary as read by
MonadClient.send_transaction: the tx_params.get calls default missing
entries of value, gas and gasPrice to 0. -/
structure PyTx where
  value : Option Nat
  gas : Option Nat
  gasPrice : Option Nat
deriving DecidableEq, Repr

/-- MonadClient.send_transaction (src/core/blockchain.py lines 254 to 284):
raises ValueError without an injected account; queries the balance of the
sending address, computes required = value + gas times gasPrice, raises
InsufficientFundsError (re-raised distinctly) when the balance is below
required, and only then hands the transaction to the node, wrapping node
errors into TransactionError.  The node is abstracted by getBalance and
submit; the Bool of the result records whether submit was invoked. -/
def MonadClient.send_transaction (account : Option LocalAccount)
    (wallet_address : Option String) (getBalance : String → Nat)
    (submit : PyTx → Except String String) (tx : PyTx) :
    Except MErr String × Bool :=
  match account with
  | none => (Except.error (MErr.valueError ("No active wallet with private key set")), false)
  | some _ =>
    match wallet_address with
    | none =>
      (Except.error (MErr.transactionError ("Failed to send transaction: no address")), false)
    | some addr =>
      let balance := getBalance addr
      let required := tx.value.getD 0 + tx.gas.getD 0 * tx.gasPrice.getD 0
      if balance < required then
        (Except.error (MErr.insufficientFunds
          ((((("Insufficient funds: have ") ++ toString balance) ++ (" wei, need "))
            ++ toString required) ++ (" wei"))), false)
      else
        match submit tx with
        | Except.ok h => (Except.ok h, true)
        | Except.error e =>
          (Except.error (MErr.transactionError (("Failed to send transaction: ") ++ e)), true)

/-- Outcome of one get_transaction_receipt query inside the polling loop of
wait_for_transaction_receipt: the node raises (transaction not yet mined),
returns a falsy receipt, or returns a receipt with a status code. -/
inductive QueryResult
  | errorNotMined
  | nullReceipt
  | receipt (status : Nat)
deriving DecidableEq, Repr

/-- Errors raised by the polling loop. -/
inductive TxErr
  | txFailed (status : Nat)
  | timeout
deriving DecidableEq, Repr

/-- Polling loop of MonadClient.wait_for_transaction_receipt
(src/core/blockchain.py lines 286 to 321): while the clock is before the
deadline, query the receipt for the current attempt; a receipt with status
1 is returned, a receipt with any other status raises TransactionError at
once (the raise is re-raised past the generic handler), an absent receipt
or a query exception falls through to the sleep and the next attempt; at
the deadline the loop exits and raises the timeout TransactionError.  Time
is modelled by the clock t advancing by pollInterval per iteration, which
must be positive, as every real iteration takes at least the sleep. -/
def pollLoop (query : Nat → QueryResult) (deadline pollInterval : Nat)
    (hp : 0 < pollInterval) (t : Nat) (attempt : Nat) : Except TxErr Nat :=
  if _h : t < deadline then
    match query attempt with
    | QueryResult.receipt s =>
      if s == 1 then Except.ok s else Except.error (TxErr.txFailed s)
    | QueryResult.nullReceipt =>
      pollLoop query deadline pollInterval hp (t + pollInterval) (attempt + 1)
    | QueryResult.errorNotMined =>
      pollLoop query deadline pollInterval hp (t + pollInterval) (attempt + 1)
  else Except.error TxErr.timeout
termination_by deadline - t
decreasing_by
  all_goals omega

/-- MonadClient.wait_for_transaction_receipt wrapper: the deadline is the
start time plus the timeout and polling starts at the start time with the
first attempt. -/
def MonadClient.wait_for_transaction_receipt (query : Nat → QueryResult)
    (start timeout pollInterval : Nat) (hp : 0 < pollInterval) :
    Except TxErr Nat :=
  pollLoop query (start + timeout) pollInterval hp start 0

/-- A value returned by a task operation, as discriminated by
BaseTask.run (src/tasks/base.py lines 117 to 127): a dict of entries, a
string, None, or any other value (carried as its repr). -/
inductive TaskValue
  | tdict (entries : List (String × String))
  | tstr (s : String)
  | tnone
  | tother (repr : String)
deriving DecidableEq, Repr

/-- Behaviour of one task execute call: it returns a value or raises an
exception with a message. -/
inductive TaskBehavior
  | returns (v : TaskValue)
  | raises (msg : String)
deriving DecidableEq, Repr

/-- TaskResult (src/tasks/base.py lines 14 to 46).  execution_time is the
wall-clock duration in the time unit of the model. -/
structure TaskResult where
  task_id : String
  task_name : String
  status : String
  tx_hash : Option String
  result_data : List (String × String)
  error : Option String
  execution_time : Nat
deriving DecidableEq, Repr

/-- TaskResult.is_success (src/tasks/base.py lines 33 to 35). -/
def TaskResult.is_success (r : TaskResult) : Bool :=
  r.status == ("success")

/-- A task as the framework sees it: its id, its name, what its execute
call does, and the wall-clock time its run happens to take. -/
structure STask where
  task_id : String
  task_name : String
  behavior : TaskBehavior
  elapsed : Nat
deriving DecidableEq, Repr

/-- BaseTask.run (src/tasks/base.py lines 91 to 141): invokes execute under
a try block; on return it builds a success result and fills tx_hash or
result_data according to the shape of the returned value (a dict is stored
as result_data with its tx_hash entry extracted, a string starting with 0x
is taken as the hash, any other non-None value is stored under the value
key); any exception is caught and turned into a failed result carrying the
exception text.  The function is total: run never propagates an
exception. -/
def STask.run (t : STask) : TaskResult :=
  match t.behavior with
  | TaskBehavior.raises msg =>
    { task_id := t.task_id, task_name := t.task_name, status := ("failed")
      tx_hash := none, result_data := [], error := some msg
      execution_time := t.elapsed }
  | TaskBehavior.returns v =>
    let base : TaskResult :=
      { task_id := t.task_id, task_name := t.task_name, status := ("success")
        tx_hash := none, result_data := [], error := none
        execution_time := t.elapsed }
    match v with
    | TaskValue.tdict entries =>
      { base with result_data := entries, tx_hash := entries.lookup ("tx_hash") }
    | TaskValue.tstr s =>
      if strStartsWith s ("0x") then { base with tx_hash := some s }
      else { base with result_data := [(("value"), s)] }
    | TaskValue.tnone => base
    | TaskValue.tother r =>
      { base with result_data := [(("value"), r)] }

/-- Loop body of MultiTask.execute (src/tasks/base.py lines 193 to 214):
run each subtask in order, record its result in the results dict, and stop
at the first result that is not successful.  The returned association list
is the subtask_results mapping of the aggregated result. -/
def MultiTask.runSubtasks : List STask → List (String × TaskResult) →
    List (String × TaskResult)
  | [], acc => acc
  | t :: rest, acc =>
    let r := STask.run t
    let acc2 := pyDictInsert acc t.task_id r
    if r.is_success then MultiTask.runSubtasks rest acc2 else acc2

/-- MultiTask.execute: the fail-fast sequential composite. -/
def MultiTask.execute (ts : List STask) : List (String × TaskResult) :=
  MultiTask.runSubtasks ts []

/-- Conversion applied by ParallelTask.execute (src/tasks/base.py lines 272
to 287) to each gathered outcome: an exception becomes a synthetic failed
result with execution time 0 carrying the exception text; a returned
TaskResult is kept as is. -/
def gatherConvert (t : STask) : Except String TaskResult → TaskResult
  | Except.error msg =>
    { task_id := t.task_id, task_name := t.task_name, status := ("failed")
      tx_hash := none, result_data := [], error := some msg
      execution_time := 0 }
  | Except.ok r => r

/-- ParallelTask.execute (src/tasks/base.py lines 253 to 288): gather runs
all subtasks and yields one outcome per subtask (a TaskResult, or the
exception the run faulted with, since return_exceptions is set); the loop
then builds the results dict pairing subtasks with outcomes by index.  The
gathered outcomes are the raw input, one per subtask. -/
def ParallelTask.execute (ts : List STask)
    (raw : List (Except String TaskResult)) : List (String × TaskResult) :=
  (ts.zip raw).foldl
    (fun acc p => pyDictInsert acc p.1.task_id (gatherConvert p.1 p.2)) []

/-! Association-list lemmas for the Python dictionary model. -/

theorem lookup_update_eq {α : Type} (k : String) (v : α) :
    ∀ l : List (String × α), l.any (fun p => p.1 == k) = true →
      (l.map (fun p => if p.1 == k then (k, v) else p)).lookup k = some v := by
  intro l
  induction l with
  | nil => intro h; simp at h
  | cons p t ih =>
    obtain ⟨pk, pv⟩ := p
    intro h
    cases hpk : (pk == k) with
    | true =>
      simp only [List.map_cons, hpk, if_true]
      simp [List.lookup]
    | false =>
      simp only [List.map_cons, hpk, Bool.false_eq_true, if_false]
      have hk2 : (k == pk) = false := by
        have := (beq_eq_false_iff_ne (a := pk) (b := k)).mp hpk
        exact (beq_eq_false_iff_ne (a := k) (b := pk)).mpr (fun he => this he.symm)
      simp only [List.any_cons, hpk, Bool.false_or] at h
      simp only [List.lookup, hk2]
      exact ih h

theorem lookup_update_ne {α : Type} (k k2 : String) (v : α) (hne : k2 ≠ k) :
    ∀ l : List (String × α),
      (l.map (fun p => if p.1 == k then (k, v) else p)).lookup k2 = l.lookup k2 := by
  intro l
  induction l with
  | nil => simp
  | cons p t ih =>
    obtain ⟨pk, pv⟩ := p
    cases hpk : (pk == k) with
    | true =>
      have hp1 : pk = k := beq_iff_eq.mp hpk
      have hk2 : (k2 == k) = false := beq_eq_false_iff_ne.mpr hne
      have hk3 : (k2 == pk) = false := by rw [hp1]; exact hk2
      simp only [List.map_cons, hpk, if_true]
      simp only [List.lookup, hk2, hk3]
      exact ih
    | false =>
      simp only [List.map_cons, hpk, Bool.false_eq_true, if_false]
      cases hk3 : (k2 == pk) with
      | true => simp only [List.lookup, hk3]
      | false =>
        simp only [List.lookup, hk3]
        exact ih

theorem lookup_none_of_any_false {α : Type} (k : String) :
    ∀ l : List (String × α), l.any (fun p => p.1 == k) = false →
      l.lookup k = none := by
  intro l
  induction l with
  | nil => intro _; simp
  | cons p t ih =>
    obtain ⟨pk, pv⟩ := p
    intro h
    simp only [List.any_cons, Bool.or_eq_false_iff] at h
    have hk2 : (k == pk) = false := by
      have := (beq_eq_false_iff_ne (a := pk) (b := k)).mp h.1
      exact (beq_eq_false_iff_ne (a := k) (b := pk)).mpr (fun he => this he.symm)
    simp only [List.lookup, hk2]
    exact ih h.2

theorem lookup_append_single_self {α : Type} (k : String) (v : α) :
    ∀ l : List (String × α), l.any (fun p => p.1 == k) = false →
      (l ++ [(k, v)]).lookup k = some v := by
  intro l
  induction l with
  | nil => intro _; simp [List.lookup]
  | cons p t ih =>
    obtain ⟨pk, pv⟩ := p
    intro h
    simp only [List.any_cons, Bool.or_eq_false_iff] at h
    have hk2 : (k == pk) = false := by
      have := (beq_eq_false_iff_ne (a := pk) (b := k)).mp h.1
      exact (beq_eq_false_iff_ne (a := k) (b := pk)).mpr (fun he => this he.symm)
    simp only [List.cons_append, List.lookup, hk2]
    exact ih h.2

theorem lookup_append_single_ne {α : Type} (k k2 : String) (v : α) (hne : k2 ≠ k) :
    ∀ l : List (String × α), (l ++ [(k, v)]).lookup k2 = l.lookup k2 := by
  intro l
  induction l with
  | nil => simp [List.lookup, beq_eq_false_iff_ne.mpr hne]
  | cons p t ih =>
    obtain ⟨pk, pv⟩ := p
    cases hk3 : (k2 == pk) with
    | true => simp only [List.cons_append, List.lookup, hk3]
    | false =>
      simp only [List.cons_append, List.lookup, hk3]
      exact ih

theorem lookup_pyDictInsert_self {α : Type} (l : List (String × α)) (k : String)
    (v : α) : (pyDictInsert l k v).lookup k = some v := by
  unfold pyDictInsert
  cases hany : l.any (fun p => p.1 == k) with
  | true => simp only [hany, if_true]; exact lookup_update_eq k v l hany
  | false =>
    simp only [hany, Bool.false_eq_true, if_false]
    exact lookup_append_single_self k v l hany

theorem lookup_pyDictInsert_ne {α : Type} (l : List (String × α)) (k k2 : String)
    (v : α) (hne : k2 ≠ k) :
    (pyDictInsert l k v).lookup k2 = l.lookup k2 := by
  unfold pyDictInsert
  cases hany : l.any (fun p => p.1 == k) with
  | true => simp only [hany, if_true]; exact lookup_update_ne k k2 v hne l
  | false =>
    simp only [hany, Bool.false_eq_true, if_false]
    exact lookup_append_single_ne k k2 v hne l

theorem any_key_eq_false_of_not_mem {α : Type} (l : List (String × α)) (k : String)
    (h : k ∉ l.map Prod.fst) : l.any (fun p => p.1 == k) = false := by
  rw [← Bool.not_eq_true, List.any_eq_true]
  rintro ⟨p, hp, hk⟩
  exact h (List.mem_map.mpr ⟨p, hp, beq_iff_eq.mp hk⟩)

theorem pyDictInsert_of_not_mem {α : Type} (l : List (String × α)) (k : String)
    (v : α) (h : k ∉ l.map Prod.fst) : pyDictInsert l k v = l ++ [(k, v)] := by
  unfold pyDictInsert
  simp only [any_key_eq_false_of_not_mem l k h, Bool.false_eq_true, if_false]

/-! Claim C1: encrypted wallet persistence. -/

/-- Concrete wallet for the persistence counterexample: imported from the
raw key 0xsecret under the identity derivation and checksum environment. -/
def wC1 : Wallet :=
  Wallet.from_private_key (fun k => k) (fun s => s) ("n") ("0xsecret")

/-- Concrete manager state holding wC1, with a wallet directory and an
empty disk. -/
def sC1 : ManagerState :=
  { wallets := [(("n"), wC1)]
    active_wallet_name := some ("n")
    client := { account := none, middleware_signer := none, wallet_address := none }
    hasWalletDir := true
    disk := [] }

/-- Claim C1 counterexample.  The claim says a wallet persisted with a
password set is stored with its private key encrypted (ciphertext plus a
fresh random salt) and that decrypting with a wrong password fails.  In
the source there is no password, no KDF, no salt and no ciphertext at all:
save_wallet writes the to_dict record, whose private_key field is the raw
key verbatim.  At this concrete wallet the persisted bytes equal the
plaintext key exactly, refuting the encrypted-at-rest round trip as
stated. -/
theorem save_wallet_plaintext_counterexample :
    WalletManager.save_wallet sC1 ("n") =
      Except.ok { sC1 with disk :=
        [(("n.wallet"),
          { name := ("n"), address := ("0xsecret"),
            private_key := some ("0xsecret") })] } ∧
    (Wallet.to_dict wC1).private_key = some ("0xsecret") := by
  constructor
  · rfl
  · rfl

/-- Claim C1 (amended): persisting a wallet stores its private key in the
clear, verbatim; reloading the persisted record with from_dict
reconstructs a wallet holding the same key (normalised to carry the 0x
prefix), with no password involved anywhere.  This is the round trip the
code actually implements. -/
theorem wallet_persistence_roundtrip_plaintext :
    ∀ (derive checksum : String → String) (w : Wallet) (k : String),
      w.private_key = some k → k ≠ ("") →
      (Wallet.to_dict w).private_key = some k ∧
      (Wallet.from_dict derive checksum (Wallet.to_dict w)).private_key =
        some (with0x k) := by
  intro derive checksum w k hk hne
  have hbe : (k == ("")) = false := beq_eq_false_iff_ne.mpr hne
  constructor
  · simp [Wallet.to_dict, hk, hbe]
  · simp [Wallet.to_dict, Wallet.from_dict, hk, hbe, Wallet.from_private_key,
      Wallet.init]

/-- Witness for the amended C1 round trip at a concrete wallet. -/
theorem wallet_persistence_roundtrip_plaintext_witness :
    (wC1.private_key = some ("0xsecret")) ∧ (("0xsecret" : String) ≠ ("")) ∧
    (Wallet.to_dict wC1).private_key = some ("0xsecret") ∧
    (Wallet.from_dict (fun k => k) (fun s => s) (Wallet.to_dict wC1)).private_key =
      some (with0x ("0xsecret")) := by
  refine ⟨rfl, by decide, ?_, ?_⟩
  · exact (wallet_persistence_roundtrip_plaintext (fun k => k) (fun s => s) wC1
      ("0xsecret") rfl (by decide)).1
  · exact (wallet_persistence_roundtrip_plaintext (fun k => k) (fun s => s) wC1
      ("0xsecret") rfl (by decide)).2

/-! Claim C4: address and key consistency across construction paths. -/

/-- Helper: wallets built by from_private_key always carry the checksummed
address derived from their stored key. -/
theorem from_private_key_consistent (derive checksum : String → String)
    (name pk : String) :
    addrConsistent derive checksum
      (Wallet.from_private_key derive checksum name pk) := by
  intro k hk
  simp only [Wallet.from_private_key, Wallet.init, Account.from_key,
    Option.some.injEq] at hk
  subst hk
  rfl

/-- Claim C4 counterexample.  The claim says no construction path can
produce a wallet whose stored address disagrees with its held key, naming
the direct constructor among the paths.  Wallet.__init__ performs no
consistency check: in an environment where the key 0xkey derives the
address 0xB, constructing a wallet directly with address 0xAAAA and key
0xkey yields a stored address that disagrees with the held key. -/
theorem wallet_init_mismatch_counterexample :
    ¬ addrConsistent (fun _ => ("0xB")) (fun s => s)
        (Wallet.init (fun _ => ("0xB")) (fun s => s) ("n") ("0xAAAA")
          (some ("0xkey")) none) := by
  intro h
  have h2 := h ("0xkey") rfl
  exact absurd h2 (by decide)

/-- Claim C4 (amended): the classmethod construction paths do guarantee
consistency — from_private_key and from_dict always produce wallets whose
address is derived from the held key, and from_mnemonic does so whenever
the library account is itself consistent — but the direct constructor
performs no check and admits a mismatch. -/
theorem wallet_classmethods_addr_consistent :
    ∀ (derive checksum : String → String) (name pk : String)
      (r : WalletRecord) (acct : LocalAccount),
      addrConsistent derive checksum
        (Wallet.from_private_key derive checksum name pk) ∧
      addrConsistent derive checksum (Wallet.from_dict derive checksum r) ∧
      (acct.address = derive acct.keyHex →
        addrConsistent derive checksum
          (Wallet.from_mnemonic derive checksum name acct)) := by
  intro derive checksum name pk r acct
  refine ⟨from_private_key_consistent derive checksum name pk, ?_, ?_⟩
  · unfold Wallet.from_dict
    cases hr : r.private_key with
    | none =>
      intro k hk
      simp [Wallet.init] at hk
    | some k0 =>
      cases h0 : (k0 == ("")) with
      | true =>
        simp only [h0, if_true]
        intro k hk
        simp [Wallet.init] at hk
      | false =>
        simp only [h0, Bool.false_eq_true, if_false]
        exact from_private_key_consistent derive checksum r.name k0
  · intro hlib k hk
    simp only [Wallet.from_mnemonic, Wallet.init, Option.some.injEq] at hk
    subst hk
    show checksum acct.address = checksum (derive acct.keyHex)
    rw [hlib]

/-- Witness for the amended C4 at a concrete environment and account. -/
theorem wallet_classmethods_addr_consistent_witness :
    ((⟨("0xD"), ("0xk")⟩ : LocalAccount).address =
      (fun _ => ("0xD")) ((⟨("0xD"), ("0xk")⟩ : LocalAccount).keyHex)) ∧
    addrConsistent (fun _ => ("0xD")) (fun s => s)
      (Wallet.from_private_key (fun _ => ("0xD")) (fun s => s) ("n") ("0xk")) ∧
    addrConsistent (fun _ => ("0xD")) (fun s => s)
      (Wallet.from_mnemonic (fun _ => ("0xD")) (fun s => s) ("n")
        ⟨("0xD"), ("0xk")⟩) := by
  refine ⟨rfl, ?_, ?_⟩
  · exact (wallet_classmethods_addr_consistent (fun _ => ("0xD")) (fun s => s)
      ("n") ("0xk") ⟨("n"), ("0xA"), none⟩ ⟨("0xD"), ("0xk")⟩).1
  · exact (wallet_classmethods_addr_consistent (fun _ => ("0xD")) (fun s => s)
      ("n") ("0xk") ⟨("n"), ("0xA"), none⟩ ⟨("0xD"), ("0xk")⟩).2.2 rfl

/-! Claim C10: switching to a watch-only wallet. -/

/-- Claim C10: when set_active_wallet switches to a wallet without a
private key, the client sending address is updated to the new wallet
address and the active name is recorded, while the previously injected
signing account and the sign_and_send_raw middleware are left exactly as
they were — the old signer stays in place. -/
theorem set_active_watch_only_keeps_signer :
    ∀ (s : ManagerState) (name : String) (w : Wallet),
      s.wallets.lookup name = some w → w.has_private_key = false →
      WalletManager.set_active_wallet s name = Except.ok
        { s with active_wallet_name := some name,
                 client := { s.client with wallet_address := some w.address } } := by
  intro s name w h hw
  unfold WalletManager.set_active_wallet
  rw [h]
  simp [hw]

/-- The watch-only wallet of the C10 witness. -/
def wWatch : Wallet :=
  { name := ("watch"), address := ("0xW"), private_key := none, account := none }

/-- Concrete state for the C10 witness: a signer is injected and a
watch-only wallet is present. -/
def sC10 : ManagerState :=
  { wallets := [(("watch"), wWatch)]
    active_wallet_name := some ("old")
    client := { account := some ⟨("0xOLD"), ("kOLD")⟩
                middleware_signer := some ⟨("0xOLD"), ("kOLD")⟩
                wallet_address := some ("0xOLD") }
    hasWalletDir := false
    disk := [] }

/-- Witness for C10: at the concrete state the switch keeps the old signer
in the client account and middleware while the address moves. -/
theorem set_active_watch_only_keeps_signer_witness :
    (sC10.wallets.lookup ("watch") = some wWatch) ∧
    (wWatch.has_private_key = false) ∧
    WalletManager.set_active_wallet sC10 ("watch") = Except.ok
      { sC10 with active_wallet_name := some ("watch"),
                  client := { sC10.client with wallet_address := some (wWatch.address) } } := by
  refine ⟨by decide, by decide, ?_⟩
  exact set_active_watch_only_keeps_signer sC10 ("watch") wWatch
    (by decide) (by decide)

/-! Claim C2: the scoped wallet switch of transfer and approve_token. -/

/-- Helper: a successful set_active_wallet only changes the active name and
the client; wallet map, directory flag and disk are untouched. -/
theorem set_active_wallet_ok_fields :
    ∀ (s : ManagerState) (name : String) (s2 : ManagerState),
      WalletManager.set_active_wallet s name = Except.ok s2 →
      s2.wallets = s.wallets ∧ s2.active_wallet_name = some name ∧
      s2.hasWalletDir = s.hasWalletDir ∧ s2.disk = s.disk := by
  intro s name s2 h
  unfold WalletManager.set_active_wallet at h
  cases hl : s.wallets.lookup name with
  | none => rw [hl] at h; cases h
  | some w =>
    rw [hl] at h
    simp only [Except.ok.injEq] at h
    subst h
    exact ⟨rfl, rfl, rfl, rfl⟩

/-- Helper: set_active_wallet succeeds whenever the name is present. -/
theorem set_active_wallet_ok_of_lookup :
    ∀ (s : ManagerState) (a : String) (wa : Wallet),
      s.wallets.lookup a = some wa →
      ∃ s2, WalletManager.set_active_wallet s a = Except.ok s2 ∧
        s2.active_wallet_name = some a := by
  intro s a wa h
  unfold WalletManager.set_active_wallet
  rw [h]
  exact ⟨_, rfl, rfl⟩

/-- Claim C2 (amended): when a wallet was active before the call and is
present in the store, transfer and approve_token restore it as the active
wallet on every exit path — for any body outcome, success or raised
error.  (When no wallet was active before the call, the restore is
skipped; see the counterexample.) -/
theorem transfer_approve_restore_active :
    ∀ (s : ManagerState) (wname : Option String)
      (body : ClientState → ClientState × Except MErr String)
      (a : String) (wa : Wallet),
      s.active_wallet_name = some a → s.wallets.lookup a = some wa →
      (WalletManager.transfer s wname body).1.active_wallet_name = some a ∧
      (WalletManager.approve_token s wname body).1.active_wallet_name = some a := by
  intro s wname body a wa ha hwa
  constructor
  · unfold WalletManager.transfer
    cases hg : WalletManager.get_wallet_for_operation s wname with
    | error e => simp [ha]
    | ok w =>
      by_cases hsw : some w.name ≠ s.active_wallet_name
      · simp only [if_pos hsw]
        cases hset : WalletManager.set_active_wallet s w.name with
        | error e => simp [ha]
        | ok s1 =>
          obtain ⟨hw1, hact1, _, _⟩ := set_active_wallet_ok_fields s w.name s1 hset
          simp only [if_pos hsw, ha]
          have hlk : ({ s1 with client := (body s1.client).1 } : ManagerState).wallets.lookup a = some wa := by
            simpa [hw1] using hwa
          obtain ⟨s3, hs3, hact3⟩ :=
            set_active_wallet_ok_of_lookup _ a wa hlk
          rw [hs3]
          simpa using hact3
      · simp only [if_neg hsw]
        push_neg at hsw
        rw [ha] at hsw
        have hna : w.name = a := Option.some.inj hsw
        simp [ha, hna]
  · unfold WalletManager.approve_token
    cases hg : WalletManager.get_wallet_for_operation s wname with
    | error e => simp [ha]
    | ok w =>
      by_cases hsw : some w.name ≠ s.active_wallet_name
      · simp only [if_pos hsw]
        cases hset : WalletManager.set_active_wallet s w.name with
        | error e => simp [ha]
        | ok s1 =>
          obtain ⟨hw1, hact1, _, _⟩ := set_active_wallet_ok_fields s w.name s1 hset
          simp only [if_pos hsw, ha]
          have hlk : ({ s1 with client := (body s1.client).1 } : ManagerState).wallets.lookup a = some wa := by
            simpa [hw1] using hwa
          obtain ⟨s3, hs3, hact3⟩ :=
            set_active_wallet_ok_of_lookup _ a wa hlk
          rw [hs3]
          simpa using hact3
      · simp only [if_neg hsw]
        push_neg at hsw
        rw [ha] at hsw
        have hna : w.name = a := Option.some.inj hsw
        simp [ha, hna]

/-- Concrete wallet A for the C2 scenarios. -/
def wA : Wallet :=
  { name := ("A"), address := ("0xA"), private_key := some ("0xka"),
    account := some ⟨("0xA"), ("0xka")⟩ }

/-- Concrete wallet B for the C2 scenarios. -/
def wB : Wallet :=
  { name := ("B"), address := ("0xB"), private_key := some ("0xkb"),
    account := some ⟨("0xB"), ("0xkb")⟩ }

/-- Concrete state with wallet A active and wallet B present. -/
def sC2 : ManagerState :=
  { wallets := [(("A"), wA), (("B"), wB)]
    active_wallet_name := some ("A")
    client := { account := none, middleware_signer := none, wallet_address := none }
    hasWalletDir := false
    disk := [] }

/-- The same store with no active wallet at all (as after removing the
active wallet). -/
def sC2none : ManagerState :=
  { sC2 with active_wallet_name := none }

/-- A transfer body that succeeds and leaves the client untouched. -/
def bodyC2 : ClientState → ClientState × Except MErr String :=
  fun c => (c, Except.ok ("0xh"))

/-- Witness for the amended C2: with A active, a transfer and an approve
through wallet B both restore A afterwards. -/
theorem transfer_approve_restore_active_witness :
    (sC2.active_wallet_name = some ("A")) ∧
    (sC2.wallets.lookup ("A") = some wA) ∧
    (WalletManager.transfer sC2 (some ("B")) bodyC2).1.active_wallet_name = some ("A") ∧
    (WalletManager.approve_token sC2 (some ("B")) bodyC2).1.active_wallet_name = some ("A") := by
  refine ⟨rfl, by decide, ?_, ?_⟩
  · exact (transfer_approve_restore_active sC2 (some ("B")) bodyC2 ("A") wA rfl
      (by decide)).1
  · exact (transfer_approve_restore_active sC2 (some ("B")) bodyC2 ("A") wA rfl
      (by decide)).2

/-- Claim C2 counterexample.  The claim says whatever wallet was active
before the call — including no wallet at all — is active again after the
call.  The source restores only when original_active is not None: starting
from a store with no active wallet, a successful transfer through wallet B
leaves B active after the call, so the before state (no active wallet) is
not reestablished. -/
theorem transfer_leaks_switch_counterexample :
    sC2none.active_wallet_name = none ∧
    (WalletManager.transfer sC2none (some ("B")) bodyC2).1.active_wallet_name =
      some ("B") := by
  exact ⟨rfl, by decide⟩

/-! Claim C3: loading wallets from the wallet directory. -/

/-- Helper: from_dict keeps the record name in every branch. -/
theorem from_dict_name (derive checksum : String → String) (r : WalletRecord) :
    (Wallet.from_dict derive checksum r).name = r.name := by
  unfold Wallet.from_dict
  cases hr : r.private_key with
  | none => rfl
  | some k =>
    cases hk : (k == ("")) with
    | true => simp only [hk, if_true]; rfl
    | false =>
      simp only [hk, Bool.false_eq_true, if_false]
      rfl

/-- Helper: with a wallet directory, add_wallet always succeeds, registers
the wallet under its name, and writes its to_dict record to disk (the
re-persist step of every add). -/
theorem add_wallet_persists :
    ∀ (s : ManagerState) (w : Wallet), s.hasWalletDir = true →
      ∃ s2, WalletManager.add_wallet s w = Except.ok s2 ∧
        s2.wallets.lookup w.name = some w ∧
        s2.disk.lookup (w.name ++ (".wallet")) = some (Wallet.to_dict w) := by
  intro s w hdir
  unfold WalletManager.add_wallet
  have hlk1 : (pyDictInsert s.wallets w.name w).lookup w.name = some w :=
    lookup_pyDictInsert_self s.wallets w.name w
  cases hlen : (({ s with wallets := pyDictInsert s.wallets w.name w } :
      ManagerState).wallets.length == 1) with
  | true =>
    simp only [hlen, if_true]
    obtain ⟨s2, hset, hact⟩ :=
      set_active_wallet_ok_of_lookup
        { s with wallets := pyDictInsert s.wallets w.name w } w.name w hlk1
    obtain ⟨hw2, _, hdir2, hdisk2⟩ := set_active_wallet_ok_fields _ _ _ hset
    rw [hset]
    unfold WalletManager.save_wallet
    have hd2 : s2.hasWalletDir = true := by rw [hdir2]; exact hdir
    have hl2 : s2.wallets.lookup w.name = some w := by rw [hw2]; exact hlk1
    simp only [hd2, hl2]
    refine ⟨_, rfl, by rw [hw2]; exact hlk1, ?_⟩
    simp only [hdisk2]
    exact lookup_pyDictInsert_self _ _ _
  | false =>
    simp only [hlen, Bool.false_eq_true, if_false]
    unfold WalletManager.save_wallet
    simp only [hdir, hlk1]
    refine ⟨_, rfl, hlk1, ?_⟩
    exact lookup_pyDictInsert_self _ _ _

/-- Claim C3 (amended): load_wallets skips a record that fails to parse —
the remaining records load exactly as if the bad file were absent, so one
bad file never aborts the store — and registers each successfully parsed
record in the in-memory store; but contrary to the claim it is not
idempotent on disk: add_wallet re-persists every loaded wallet, writing
its record file back. -/
theorem load_wallets_skip_and_repersist :
    ∀ (derive checksum : String → String) (s : ManagerState)
      (fs1 fs2 : List (Except String WalletRecord)) (e : String)
      (r : WalletRecord),
      (WalletManager.load_wallets derive checksum s
          (fs1 ++ Except.error e :: fs2) =
        WalletManager.load_wallets derive checksum s (fs1 ++ fs2)) ∧
      (s.hasWalletDir = true →
        (WalletManager.load_wallets derive checksum s
            [Except.ok r]).wallets.lookup r.name =
          some (Wallet.from_dict derive checksum r) ∧
        (WalletManager.load_wallets derive checksum s
            [Except.ok r]).disk.lookup (r.name ++ (".wallet")) =
          some (Wallet.to_dict (Wallet.from_dict derive checksum r))) := by
  intro derive checksum s fs1 fs2 e r
  constructor
  · unfold WalletManager.load_wallets
    cases hdir : s.hasWalletDir with
    | false => simp
    | true =>
      rw [if_neg (fun h => Bool.noConfusion h), if_neg (fun h => Bool.noConfusion h)]
      rw [List.foldl_append, List.foldl_append, List.foldl_cons]
  · intro hdir
    unfold WalletManager.load_wallets
    simp only [hdir]
    rw [if_neg (fun h => Bool.noConfusion h)]
    obtain ⟨s2, hadd, h1, h2⟩ :=
      add_wallet_persists s (Wallet.from_dict derive checksum r) hdir
    rw [List.foldl_cons, List.foldl_nil]
    rw [from_dict_name derive checksum r] at h1 h2
    simp only [hadd]
    exact ⟨h1, h2⟩

/-- Empty store with a wallet directory, for the C3 scenarios. -/
def sC3 : ManagerState :=
  { wallets := []
    active_wallet_name := none
    client := { account := none, middleware_signer := none, wallet_address := none }
    hasWalletDir := true
    disk := [] }

/-- A watch-only record on disk for the C3 scenarios. -/
def rC3 : WalletRecord :=
  { name := ("w1"), address := ("0xA"), private_key := none }

/-- Claim C3 counterexample.  The claim says load registers records without
writing any wallet file back to disk.  In the source load_wallets calls
add_wallet, and add_wallet unconditionally calls save_wallet: loading one
record into an empty store writes the record file straight back, so the
disk changes. -/
theorem load_wallets_writes_disk_counterexample :
    sC3.disk = [] ∧
    (WalletManager.load_wallets (fun k => k) (fun s => s) sC3
        [Except.ok rC3]).disk =
      [(("w1.wallet"),
        { name := ("w1"), address := ("0xA"), private_key := none })] := by
  exact ⟨rfl, by decide⟩

/-- Witness for the amended C3 at concrete inputs: one bad file is skipped
with the rest loading unchanged, and a loaded record is both registered
and written back to disk. -/
theorem load_wallets_skip_and_repersist_witness :
    (WalletManager.load_wallets (fun k => k) (fun s => s) sC3
        (Except.error ("bad") :: [Except.ok rC3]) =
      WalletManager.load_wallets (fun k => k) (fun s => s) sC3 [Except.ok rC3]) ∧
    (sC3.hasWalletDir = true) ∧
    (WalletManager.load_wallets (fun k => k) (fun s => s) sC3
        [Except.ok rC3]).wallets.lookup (rC3.name) =
      some (Wallet.from_dict (fun k => k) (fun s => s) rC3) ∧
    (WalletManager.load_wallets (fun k => k) (fun s => s) sC3
        [Except.ok rC3]).disk.lookup (rC3.name ++ (".wallet")) =
      some (Wallet.to_dict (Wallet.from_dict (fun k => k) (fun s => s) rC3)) := by
  refine ⟨?_, rfl, ?_, ?_⟩
  · exact (load_wallets_skip_and_repersist (fun k => k) (fun s => s) sC3
      [] [Except.ok rC3] ("bad") rC3).1
  · exact ((load_wallets_skip_and_repersist (fun k => k) (fun s => s) sC3
      [] [Except.ok rC3] ("bad") rC3).2 rfl).1
  · exact ((load_wallets_skip_and_repersist (fun k => k) (fun s => s) sC3
      [] [Except.ok rC3] ("bad") rC3).2 rfl).2

/-! Claim C5: the pre-submission balance check of send_transaction. -/

/-- Claim C5: send_transaction computes required as value plus gas times
gasPrice; when the balance of the sending address is strictly below
required it fails with InsufficientFundsError and the submit call never
reaches the node (the submitted flag of the result is false); when the
balance covers required, the submission proceeds (the flag is true). -/
theorem send_transaction_funds_check :
    ∀ (acct : LocalAccount) (addr : String) (getBalance : String → Nat)
      (submit : PyTx → Except String String) (tx : PyTx),
      (getBalance addr < tx.value.getD 0 + tx.gas.getD 0 * tx.gasPrice.getD 0 →
        MonadClient.send_transaction (some acct) (some addr) getBalance submit tx =
          (Except.error (MErr.insufficientFunds
            ((((("Insufficient funds: have ") ++ toString (getBalance addr)) ++
              (" wei, need ")) ++
              toString (tx.value.getD 0 + tx.gas.getD 0 * tx.gasPrice.getD 0)) ++
              (" wei"))), false)) ∧
      (tx.value.getD 0 + tx.gas.getD 0 * tx.gasPrice.getD 0 ≤ getBalance addr →
        (MonadClient.send_transaction (some acct) (some addr) getBalance submit tx).2 =
          true) := by
  intro acct addr getBalance submit tx
  constructor
  · intro h
    simp [MonadClient.send_transaction, h]
  · intro h
    have h2 : ¬ (getBalance addr <
        tx.value.getD 0 + tx.gas.getD 0 * tx.gasPrice.getD 0) := Nat.not_lt.mpr h
    cases hsub : submit tx with
    | ok v => simp [MonadClient.send_transaction, h2, hsub]
    | error e => simp [MonadClient.send_transaction, h2, hsub]

/-- Witness for C5 at the concrete numbers of the claim: balance 100, gas
limit 10, gas price 1, value 95 gives required 105 and an insufficient
funds failure with no submit attempt; value 50 gives required 60 and the
submission proceeds. -/
theorem send_transaction_funds_check_witness :
    ((100 : Nat) < 95 + 10 * 1) ∧
    (MonadClient.send_transaction (some ⟨("0xA"), ("k")⟩) (some ("0xA"))
        (fun _ => (100 : Nat)) (fun _ => Except.ok ("0xh"))
        { value := some 95, gas := some 10, gasPrice := some 1 } =
      (Except.error (MErr.insufficientFunds
        ((((("Insufficient funds: have ") ++ toString ((100 : Nat))) ++
          (" wei, need ")) ++ toString ((105 : Nat))) ++ (" wei"))), false)) ∧
    ((MonadClient.send_transaction (some ⟨("0xA"), ("k")⟩) (some ("0xA"))
        (fun _ => (100 : Nat)) (fun _ => Except.ok ("0xh"))
        { value := some 50, gas := some 10, gasPrice := some 1 }).2 = true) := by
  refine ⟨by decide, ?_, ?_⟩
  · exact (send_transaction_funds_check ⟨("0xA"), ("k")⟩ ("0xA")
      (fun _ => (100 : Nat)) (fun _ => Except.ok ("0xh"))
      { value := some 95, gas := some 10, gasPrice := some 1 }).1 (by decide)
  · exact (send_transaction_funds_check ⟨("0xA"), ("k")⟩ ("0xA")
      (fun _ => (100 : Nat)) (fun _ => Except.ok ("0xh"))
      { value := some 50, gas := some 10, gasPrice := some 1 }).2 (by decide)

/-! Claim C6: the receipt polling loop. -/

/-- Claim C6: while before the deadline, a receipt with success status is
returned at once; a receipt with any other status fails immediately with
the transaction-failed error, independent of all later polls; an absent
receipt (falsy value or a not-yet-mined exception) sleeps one poll
interval and retries at the next attempt; once the clock reaches the
deadline the loop fails with the timeout error; and
wait_for_transaction_receipt is the loop started at the start time with
deadline start plus timeout. -/
theorem wait_for_receipt_polling :
    ∀ (query : Nat → QueryResult) (deadline pollInterval : Nat)
      (hp : 0 < pollInterval) (t attempt s : Nat),
      (t < deadline → query attempt = QueryResult.receipt 1 →
        pollLoop query deadline pollInterval hp t attempt = Except.ok 1) ∧
      (t < deadline → query attempt = QueryResult.receipt s → s ≠ 1 →
        pollLoop query deadline pollInterval hp t attempt =
          Except.error (TxErr.txFailed s)) ∧
      (t < deadline → query attempt = QueryResult.nullReceipt →
        pollLoop query deadline pollInterval hp t attempt =
          pollLoop query deadline pollInterval hp (t + pollInterval) (attempt + 1)) ∧
      (t < deadline → query attempt = QueryResult.errorNotMined →
        pollLoop query deadline pollInterval hp t attempt =
          pollLoop query deadline pollInterval hp (t + pollInterval) (attempt + 1)) ∧
      (deadline ≤ t →
        pollLoop query deadline pollInterval hp t attempt =
          Except.error TxErr.timeout) ∧
      (∀ start timeout2,
        MonadClient.wait_for_transaction_receipt query start timeout2 pollInterval hp =
          pollLoop query (start + timeout2) pollInterval hp start 0) := by
  intro query deadline pollInterval hp t attempt s
  refine ⟨?_, ?_, ?_, ?_, ?_, ?_⟩
  · intro ht hq
    rw [pollLoop.eq_def, dif_pos ht, hq]
    rfl
  · intro ht hq hs
    have hb : (s == 1) = false := by
      exact beq_eq_false_iff_ne.mpr hs
    rw [pollLoop.eq_def, dif_pos ht, hq]
    simp [hb]
  · intro ht hq
    conv_lhs => rw [pollLoop.eq_def]
    rw [dif_pos ht, hq]
  · intro ht hq
    conv_lhs => rw [pollLoop.eq_def]
    rw [dif_pos ht, hq]
  · intro ht
    rw [pollLoop.eq_def, dif_neg (Nat.not_lt.mpr ht)]
  · intro start timeout2
    rfl

/-- A query with no receipt on the first attempt and a success receipt
afterwards. -/
def queryC6 : Nat → QueryResult :=
  fun a => if a == 0 then QueryResult.nullReceipt else QueryResult.receipt 1

/-- A query whose transaction was mined and reverted. -/
def queryRevert : Nat → QueryResult :=
  fun _ => QueryResult.receipt 0

/-- A query whose transaction succeeded at once. -/
def queryOk : Nat → QueryResult :=
  fun _ => QueryResult.receipt 1

/-- Witness for C6 at concrete clocks: immediate success, immediate
failure for a reverted receipt, one sleep-and-retry step for an absent
receipt, timeout at the deadline, and the wrapper equation. -/
theorem wait_for_receipt_polling_witness :
    ((0 : Nat) < 10) ∧
    (pollLoop queryOk 10 1 Nat.one_pos 0 0 = Except.ok 1) ∧
    (pollLoop queryRevert 10 1 Nat.one_pos 0 0 =
      Except.error (TxErr.txFailed 0)) ∧
    (pollLoop queryC6 10 1 Nat.one_pos 0 0 = pollLoop queryC6 10 1 Nat.one_pos 1 1) ∧
    (pollLoop queryOk 0 1 Nat.one_pos 0 0 = Except.error TxErr.timeout) ∧
    (MonadClient.wait_for_transaction_receipt queryOk 3 7 1 Nat.one_pos =
      pollLoop queryOk 10 1 Nat.one_pos 3 0) := by
  refine ⟨by decide, ?_, ?_, ?_, ?_, ?_⟩
  · exact (wait_for_receipt_polling queryOk 10 1 Nat.one_pos 0 0 1).1
      (by decide) rfl
  · exact (wait_for_receipt_polling queryRevert 10 1 Nat.one_pos 0 0 0).2.1
      (by decide) rfl (by decide)
  · exact (wait_for_receipt_polling queryC6 10 1 Nat.one_pos 0 0 1).2.2.1
      (by decide) rfl
  · exact (wait_for_receipt_polling queryOk 0 1 Nat.one_pos 0 0 1).2.2.2.2.1
      (by decide)
  · exact (wait_for_receipt_polling queryOk 10 1 Nat.one_pos 3 0 1).2.2.2.2.2 3 7

/-! Claim C7: run converts every exception into a failed result. -/

/-- Claim C7: run is total — its result status is always success or
failed, never a propagated exception; when the operation raises, the
result is failed and its error field carries the exception text; when the
operation returns, the result is a success. -/
theorem run_never_raises :
    ∀ t : STask,
      ((STask.run t).status = ("success") ∨ (STask.run t).status = ("failed")) ∧
      (∀ msg, t.behavior = TaskBehavior.raises msg →
        (STask.run t).status = ("failed") ∧ (STask.run t).error = some msg) ∧
      (∀ v, t.behavior = TaskBehavior.returns v →
        (STask.run t).status = ("success")) := by
  intro t
  have hstat : ∀ v, t.behavior = TaskBehavior.returns v →
      (STask.run t).status = ("success") := by
    intro v hb
    cases v with
    | tdict entries => simp [STask.run, hb]
    | tstr str =>
      cases hss : strStartsWith str ("0x") with
      | true => simp [STask.run, hb, hss]
      | false => simp [STask.run, hb, hss]
    | tnone => simp [STask.run, hb]
    | tother r => simp [STask.run, hb]
  refine ⟨?_, ?_, hstat⟩
  · cases hb : t.behavior with
    | raises msg => right; simp [STask.run, hb]
    | returns v => left; exact hstat v hb
  · intro msg hb
    constructor
    · simp [STask.run, hb]
    · simp [STask.run, hb]

/-- A task whose operation raises, for the C7 witness. -/
def tFail : STask :=
  { task_id := ("t1"), task_name := ("T1")
    behavior := TaskBehavior.raises ("boom"), elapsed := 2 }

/-- A task whose operation returns None, for the C7 witness. -/
def tOk : STask :=
  { task_id := ("t2"), task_name := ("T2")
    behavior := TaskBehavior.returns TaskValue.tnone, elapsed := 3 }

/-- Witness for C7: a raising task yields a failed result carrying the
text, a returning task yields a success. -/
theorem run_never_raises_witness :
    (tFail.behavior = TaskBehavior.raises ("boom")) ∧
    ((STask.run tFail).status = ("failed") ∧
      (STask.run tFail).error = some ("boom")) ∧
    ((STask.run tOk).status = ("success")) := by
  refine ⟨rfl, ?_, ?_⟩
  · exact (run_never_raises tFail).2.1 ("boom") rfl
  · exact (run_never_raises tOk).2.2 TaskValue.tnone rfl

/-! Claim C8: the fail-fast sequential composite. -/

/-- Helper: once the subtask after a successful prefix fails, the
remaining subtasks are irrelevant to the loop. -/
theorem runSubtasks_stop (t : STask)
    (hft : (STask.run t).is_success = false) :
    ∀ (ts1 ts2 : List STask) (acc : List (String × TaskResult)),
      (∀ u ∈ ts1, (STask.run u).is_success = true) →
      MultiTask.runSubtasks (ts1 ++ t :: ts2) acc =
        MultiTask.runSubtasks (ts1 ++ [t]) acc := by
  intro ts1
  induction ts1 with
  | nil =>
    intro ts2 acc _
    simp only [List.nil_append]
    simp [MultiTask.runSubtasks, hft]
  | cons u ts1 ih =>
    intro ts2 acc hall
    have hu : (STask.run u).is_success = true := hall u (by simp)
    simp only [List.cons_append]
    simp only [MultiTask.runSubtasks, hu, if_true]
    exact ih ts2 _ (fun x hx => hall x (by simp [hx]))

/-- Helper: over a successful prefix with one final subtask, the loop is
the plain fold of dictionary inserts. -/
theorem runSubtasks_foldl (t : STask) :
    ∀ (ts1 : List STask) (acc : List (String × TaskResult)),
      (∀ u ∈ ts1, (STask.run u).is_success = true) →
      MultiTask.runSubtasks (ts1 ++ [t]) acc =
        (ts1 ++ [t]).foldl
          (fun a u => pyDictInsert a u.task_id (STask.run u)) acc := by
  intro ts1
  induction ts1 with
  | nil =>
    intro acc _
    simp only [List.nil_append, List.foldl_cons, List.foldl_nil]
    cases hs : (STask.run t).is_success with
    | true => simp [MultiTask.runSubtasks, hs]
    | false => simp [MultiTask.runSubtasks, hs]
  | cons u ts1 ih =>
    intro acc hall
    have hu : (STask.run u).is_success = true := hall u (by simp)
    simp only [List.cons_append, List.foldl_cons]
    simp only [MultiTask.runSubtasks, hu, if_true]
    exact ih _ (fun x hx => hall x (by simp [hx]))

/-- Helper: a key outside the executed ids is absent from the folded
results dictionary. -/
theorem lookup_foldl_insert_none :
    ∀ (l : List STask) (acc : List (String × TaskResult)) (k : String),
      k ∉ l.map (fun u => u.task_id) → acc.lookup k = none →
      (l.foldl (fun a u => pyDictInsert a u.task_id (STask.run u)) acc).lookup k =
        none := by
  intro l
  induction l with
  | nil => intro acc k _ hacc; simpa using hacc
  | cons u l ih =>
    intro acc k hk hacc
    simp only [List.map_cons, List.mem_cons, not_or] at hk
    rw [List.foldl_cons]
    exact ih _ k (by simpa using hk.2)
      (by rw [lookup_pyDictInsert_ne _ _ _ _ hk.1]; exact hacc)

/-- Claim C8: the sequential composite runs subtasks in list order and
stops at the first failure: with every subtask before t succeeding and t
failing, the subtasks after t never influence the aggregate (they are not
run), the aggregate is exactly the insert-fold over the executed prefix
including t, and ids of never-run subtasks are absent from the mapping. -/
theorem multitask_fail_fast :
    ∀ (ts1 : List STask) (t : STask) (ts2 : List STask),
      (∀ u ∈ ts1, (STask.run u).is_success = true) →
      (STask.run t).is_success = false →
      (MultiTask.execute (ts1 ++ t :: ts2) = MultiTask.execute (ts1 ++ [t])) ∧
      (MultiTask.execute (ts1 ++ [t]) =
        (ts1 ++ [t]).foldl
          (fun a u => pyDictInsert a u.task_id (STask.run u)) []) ∧
      (∀ k, k ∉ (ts1 ++ [t]).map (fun u => u.task_id) →
        (MultiTask.execute (ts1 ++ t :: ts2)).lookup k = none) := by
  intro ts1 t ts2 hall hft
  have h1 := runSubtasks_stop t hft ts1 ts2 [] hall
  have h2 := runSubtasks_foldl t ts1 [] hall
  refine ⟨h1, h2, ?_⟩
  intro k hk
  have h3 : MultiTask.execute (ts1 ++ t :: ts2) =
      (ts1 ++ [t]).foldl (fun a u => pyDictInsert a u.task_id (STask.run u)) [] := by
    rw [show MultiTask.execute (ts1 ++ t :: ts2) =
      MultiTask.runSubtasks (ts1 ++ t :: ts2) [] from rfl, h1]
    exact h2
  rw [h3]
  exact lookup_foldl_insert_none (ts1 ++ [t]) [] k hk rfl

/-- Witness for C8 at the concrete scenario of the claim: T1 fails, T2
succeeds; T2 is never run and the aggregate holds exactly the T1 entry. -/
theorem multitask_fail_fast_witness :
    ((STask.run tFail).is_success = false) ∧
    (MultiTask.execute [tFail, tOk] = MultiTask.execute [tFail]) ∧
    (MultiTask.execute [tFail] =
      [((("t1")), STask.run tFail)]) ∧
    ((MultiTask.execute [tFail, tOk]).lookup ("t2") = none) := by
  refine ⟨by decide, ?_, ?_, ?_⟩
  · exact (multitask_fail_fast [] tFail [tOk] (by simp) (by decide)).1
  · have h := (multitask_fail_fast [] tFail [tOk] (by simp) (by decide)).2.1
    simpa [pyDictInsert] using h
  · exact (multitask_fail_fast [] tFail [tOk] (by simp) (by decide)).2.2
      ("t2") (by decide)

/-! Claim C9: the parallel composite aggregates one entry per subtask. -/

/-- Helper: folding dictionary inserts over pairwise fresh keys appends
the entries in order. -/
theorem parallel_foldl_fresh :
    ∀ (ps : List (STask × Except String TaskResult))
      (acc : List (String × TaskResult)),
      (acc.map Prod.fst ++ ps.map (fun p => p.1.task_id)).Nodup →
      ps.foldl (fun a p => pyDictInsert a p.1.task_id (gatherConvert p.1 p.2)) acc =
        acc ++ ps.map (fun p => (p.1.task_id, gatherConvert p.1 p.2)) := by
  intro ps
  induction ps with
  | nil => intro acc _; simp
  | cons p rest ih =>
    intro acc h
    simp only [List.map_cons] at h
    have hd := List.disjoint_of_nodup_append h
    have hmem : p.1.task_id ∉ acc.map Prod.fst := by
      intro hmem
      exact hd hmem (by simp)
    rw [List.foldl_cons, pyDictInsert_of_not_mem acc p.1.task_id _ hmem]
    have h2 : ((acc ++ [(p.1.task_id, gatherConvert p.1 p.2)]).map Prod.fst ++
        rest.map (fun q => q.1.task_id)).Nodup := by
      simpa [List.append_assoc] using h
    rw [ih _ h2]
    simp [List.append_assoc]

/-- Claim C9: with one gathered outcome per subtask and distinct task ids,
the parallel composite aggregates exactly one entry per subtask in order —
no fail-fast — and a subtask whose run faulted contributes the synthetic
failed result with execution time 0 carrying the exception text. -/
theorem parallel_one_entry_per_subtask :
    ∀ (ts : List STask) (raw : List (Except String TaskResult)),
      raw.length = ts.length →
      (ts.map (fun u => u.task_id)).Nodup →
      (ParallelTask.execute ts raw =
        (ts.zip raw).map (fun p => (p.1.task_id, gatherConvert p.1 p.2))) ∧
      ((ParallelTask.execute ts raw).length = ts.length) ∧
      (∀ p ∈ ts.zip raw, ∀ e, p.2 = Except.error e →
        ((p.1.task_id,
          { task_id := p.1.task_id, task_name := p.1.task_name,
            status := ("failed"), tx_hash := none, result_data := [],
            error := some e, execution_time := 0 }) : String × TaskResult) ∈
          ParallelTask.execute ts raw) := by
  intro ts raw hlen hnodup
  have h1 : (ts.zip raw).map Prod.fst = ts :=
    List.map_fst_zip ts raw (by omega)
  have hkeys : (ts.zip raw).map (fun p => p.1.task_id) =
      ts.map (fun u => u.task_id) := by
    conv_rhs => rw [← h1]
    rw [List.map_map]
    rfl
  have hmain := parallel_foldl_fresh (ts.zip raw) []
    (by simpa [hkeys] using hnodup)
  have hexec : ParallelTask.execute ts raw =
      (ts.zip raw).map (fun p => (p.1.task_id, gatherConvert p.1 p.2)) := by
    simpa using hmain
  refine ⟨hexec, ?_, ?_⟩
  · rw [hexec, List.length_map, List.length_zip, hlen]
    exact Nat.min_self ts.length
  · intro p hp e he
    rw [hexec]
    refine List.mem_map.mpr ⟨p, hp, ?_⟩
    rw [he]
    rfl

/-- Gathered outcomes for the C9 witness: the first subtask faulted with
an exception, the second returned its run result. -/
def rawC9 : List (Except String TaskResult) :=
  [Except.error ("crash"), Except.ok (STask.run tOk)]

/-- Witness for C9 at the concrete scenario of the claim: both subtasks
contribute an entry, the faulting one as a synthetic failed result with
execution time 0. -/
theorem parallel_one_entry_per_subtask_witness :
    (rawC9.length = [tFail, tOk].length) ∧
    (ParallelTask.execute [tFail, tOk] rawC9 =
      [(("t1"),
        { task_id := ("t1"), task_name := ("T1"), status := ("failed"),
          tx_hash := none, result_data := [], error := some ("crash"),
          execution_time := 0 }),
       (("t2"), STask.run tOk)]) ∧
    ((ParallelTask.execute [tFail, tOk] rawC9).length = 2) ∧
    (((("t1"),
        { task_id := ("t1"), task_name := ("T1"), status := ("failed"),
          tx_hash := none, result_data := [], error := some ("crash"),
          execution_time := 0 }) : String × TaskResult) ∈
      ParallelTask.execute [tFail, tOk] rawC9) := by
  refine ⟨rfl, by decide, ?_, ?_⟩
  · exact (parallel_one_entry_per_subtask [tFail, tOk] rawC9 rfl
      (by decide)).2.1
  · exact (parallel_one_entry_per_subtask [tFail, tOk] rawC9 rfl
      (by decide)).2.2 (tFail, Except.error ("crash")) (by decide) ("crash") rfl
